import Mathlib

/-!
# Verification of the procedural terrain pipeline of `bevy_forest_scene`

Shallow embedding of `src/terrain.rs` (heightfield mesh generation and the
density/slope/height-gated vegetation scatter) together with the regeneration
pass `on_terrain_config_loaded`.

Modelling conventions:
* `f32`/`f64` arithmetic is embedded as exact rational arithmetic (`ℚ`).
* The external `noise` crate's `Fbm<Simplex>` sampler is an abstract function
  parameter `fbm : ℚ → ℚ → ℚ` (it is pure and deterministic in the crate).
* The external `rand` crate's `StdRng` is an abstract stream `u : ℕ → ℚ` of
  unit draws consumed in order; `gen_range(lo..hi)` maps draw `u k ∈ [0,1)`
  affinely onto `[lo, hi)`, which is the half-open-interval contract of
  `Rng::gen_range` on floats (the low endpoint is attainable).
* Bevy's `Commands` are deferred: a system queues commands and the queue is
  applied to the `World` only after the system returns normally; a panic
  inside the system aborts it before the flush, so none of its queued
  commands is applied.  The pass is therefore embedded as an
  `Option`-valued command builder plus an atomic application step.
* `Vec3::cross(Vec3::Y).length()` compares a Euclidean norm (a square root)
  against `max_steepness`; over `ℚ` the comparison `sqrt v > s` is decided
  exactly by `s < 0 ∨ v > s^2`, and a bridge lemma connects this decision
  procedure to `Real.sqrt`.
-/

/-- A 3-component vector over exact rationals, embedding `Vec3`. -/
structure Vec3 where
  x : ℚ
  y : ℚ
  z : ℚ
deriving Repr, DecidableEq

/-- `TerrainConfig` from `src/terrain.rs` (lines 123-134).  Floats become `ℚ`;
`half_size : u32` and `octaves : usize` become `ℕ`. -/
structure TerrainConfig where
  half_size : ℕ
  seed : ℕ
  frequency : ℚ
  octaves : ℕ
  density : ℚ
  max_steepness : ℚ
  use_depth_map : Bool
  rotation : ℚ
deriving Repr, DecidableEq

/-- The `Default` impl for `TerrainConfig` (lines 136-149). -/
def TerrainConfig.default : TerrainConfig :=
  { half_size := 100, seed := 42, frequency := 1, octaves := 6,
    density := 1/2, max_steepness := 1/2, use_depth_map := false, rotation := 0 }

/-- A seeded RNG stream: `u` is the infinite sequence of unit draws the seeded
`StdRng` would produce, `k` the index of the next draw.  All structure there
is in `rand` (an external crate); claims quantify over the stream. -/
structure Rng where
  u : ℕ → ℚ
  k : ℕ

/-- Every unit draw of the stream lies in `[0,1)`, the contract of uniform
float sampling in `rand`. -/
def Rng.streamBounded (u : ℕ → ℚ) : Prop := ∀ i, 0 ≤ u i ∧ u i < 1

/-- `rng.gen_range(lo..hi)` on floats: the next unit draw mapped affinely
onto the half-open interval `[lo, hi)`. -/
def genRange (r : Rng) (lo hi : ℚ) : ℚ × Rng :=
  (lo + (hi - lo) * r.u r.k, ⟨r.u, r.k + 1⟩)

/-- `rng.gen_range(0..n)` on `usize`: the next unit draw scaled to an index
in `[0, n)` (for a bounded draw and `n > 0` the floor lands in `[0, n-1]`). -/
def genIndex (r : Rng) (n : ℕ) : ℕ × Rng :=
  (⌊(n : ℚ) * r.u r.k⌋.toNat, ⟨r.u, r.k + 1⟩)

/-- `std::f32::consts::TAU` as the exact rational value of the `f32`
constant: `13176795 * 2⁻²¹`. -/
def tauF32 : ℚ := 13176795 / 2097152

/-- `Vec3::from_array(n).cross(Vec3::Y)` (line 200):
`(nx,ny,nz) × (0,1,0) = (-nz, 0, nx)`. -/
def crossY (n : Vec3) : Vec3 := ⟨-n.z, 0, n.x⟩

/-- Squared Euclidean norm of a vector. -/
def normSq (v : Vec3) : ℚ := v.x ^ 2 + v.y ^ 2 + v.z ^ 2

/-- The slope gate of line 204, `steepness > max_steepness`, where
`steepness = n.cross(Y).length()`.  Over `ℚ` the comparison
`sqrt (normSq (crossY n)) > s` is decided exactly: it holds iff `s < 0` or
`normSq (crossY n) > s^2` (see `steepnessGT_eq_false_iff`). -/
def steepnessGT (n : Vec3) (s : ℚ) : Bool :=
  decide (s < 0 ∨ normSq (crossY n) > s ^ 2)

/-- One scattered vegetation instance (lines 217-237): translation, uniform
scale, the random yaw drawn for the `Quat` about `Z` (the full rotation is
the fixed `Quat::from_axis_angle(X, 3π/2)` composed with this yaw, so the
yaw determines it), and the chosen tree-variant index. -/
structure PlacementInstance where
  translation : Vec3
  scale : ℚ
  yawZ : ℚ
  variant : ℕ
deriving Repr, DecidableEq

/-- The accepted-vertex tail of the scatter loop body (lines 209-237): draw
the jitter offsets for x, y, z, then — in the written field order of the
spawned bundle — the variant index, the scale factor, and the random yaw. -/
def acceptInst (t : ℕ) (p : Vec3) (r : Rng) : PlacementInstance × Rng :=
  let (jx, r2) := genRange r (-(1/4)) (1/4)
  let (jy, r3) := genRange r2 (-(1/20)) 0
  let (jz, r4) := genRange r3 (-(1/4)) (1/4)
  let (v, r5) := genIndex r4 t
  let (s, r6) := genRange r5 (1/50) (1/40)
  let (yaw, r7) := genRange r6 0 tauF32
  (⟨⟨p.x + jx, p.y + jy, p.z + jz⟩, s * (1 - p.y / 100), yaw, v⟩, r7)

/-- The scatter loop of `on_terrain_config_loaded` (lines 198-238) over the
zipped `(position, normal)` pairs, threading the single RNG stream.  A vertex
with `pos[1] < 0.01` is skipped before any draw (the `||` short-circuits);
otherwise one unit draw is consumed for the density coin flip, and the slope
gate is checked without consuming a draw. -/
def scatterAux (cfg : TerrainConfig) (t : ℕ) :
    List (Vec3 × Vec3) → Rng → List PlacementInstance
  | [], _ => []
  | (p, n) :: rest, r =>
    if p.y < 1/100 then
      scatterAux cfg t rest r
    else
      let (c, r1) := genRange r 0 1
      if c < 1 - cfg.density ∨ steepnessGT n cfg.max_steepness then
        scatterAux cfg t rest r1
      else
        let (inst, r7) := acceptInst t p r1
        inst :: scatterAux cfg t rest r7

/-- The scatter over a mesh's positions and normals with a freshly seeded
stream, as `on_terrain_config_loaded` runs it. -/
def scatter (cfg : TerrainConfig) (t : ℕ) (positions normals : List Vec3)
    (u : ℕ → ℚ) : List PlacementInstance :=
  scatterAux cfg t (positions.zip normals) ⟨u, 0⟩

/-- The flat subdivided plane builder `Plane { size, subdivisions }` of
`src/plane.rs`.  Modelled from the spec: `plane.rs` is not under `src/`
(only its caller `generate_terrain_mesh` is); §4.2 step 1 specifies a flat
regular grid of `size × size` world units with `subdivisions` cells per
axis, hence a `(subdivisions+1)²` vertex grid, centered at the origin, with
two triangles per quad cell.  Vertices are listed row-major; vertex `k` has
column `k % (n+1)` and row `k / (n+1)`. -/
structure Plane where
  size : ℚ
  subdivisions : ℕ

/-- Row-major vertex grid of the flat plane: `(n+1)²` vertices at spacing
`size / n`, centered at the origin, at height `0`. -/
def Plane.positions (pl : Plane) : List Vec3 :=
  let n := pl.subdivisions
  (List.range ((n + 1) * (n + 1))).map fun k =>
    ⟨-pl.size / 2 + (k % (n + 1) : ℕ) * (pl.size / n), 0,
     -pl.size / 2 + (k / (n + 1) : ℕ) * (pl.size / n)⟩

/-- Triangulation of the flat plane: each of the `n²` quad cells yields two
triangles over the row-major vertex grid. -/
def Plane.triangles (pl : Plane) : List (ℕ × ℕ × ℕ) :=
  let n := pl.subdivisions
  (List.range (n * n)).flatMap fun c =>
    let i := c / n
    let j := c % n
    let a := i * (n + 1) + j
    let b := a + 1
    let d := a + (n + 1)
    let e := d + 1
    [(a, d, b), (b, d, e)]

/-- A mesh: per-vertex positions and normals plus a triangle list. -/
structure MeshQ where
  positions : List Vec3
  normals : List Vec3
  triangles : List (ℕ × ℕ × ℕ)
deriving Repr

/-- `Plane::into::<Mesh>()` — the flat plane as a mesh, with the up-axis
unit normal at every vertex. -/
def Plane.toMesh (pl : Plane) : MeshQ :=
  { positions := pl.positions,
    normals := pl.positions.map fun _ => ⟨0, 1, 0⟩,
    triangles := pl.triangles }

/-- `get_terrain_height` (lines 302-307): scale the horizontal position by
the fixed `0.05`, sample the fractal noise there, and scale by the fixed
vertical amplitude `100.0`. -/
def get_terrain_height (fbm : ℚ → ℚ → ℚ) (x z : ℚ) : ℚ :=
  fbm (x * (1/20)) (z * (1/20)) * 100

/-- The flat subdivided plane `generate_terrain_mesh` starts from (lines
310-314): `size = half_size * 2`, `subdivisions = half_size * 2`. -/
def terrainPlane (half_size : ℕ) : Plane :=
  ⟨(half_size : ℚ) * 2, half_size * 2⟩

/-- Lines 310-323 of `generate_terrain_mesh`: build the plane with
`size = 2·half_size` and `2·half_size` subdivisions, then replace every
vertex's vertical coordinate by the noise height at its original horizontal
coordinates. -/
def displacePlane (fbm : ℚ → ℚ → ℚ) (half_size : ℕ) : MeshQ :=
  let m := (terrainPlane half_size).toMesh
  { m with positions := m.positions.map fun p =>
      ⟨p.x, get_terrain_height fbm p.x p.z, p.z⟩ }

/-- `generate_terrain_mesh` (lines 309-329).  `compute_smooth_normals` and
`generate_tangents` are Bevy engine code (external collaborators), so they
enter as abstract parameters: `sn` produces the smoothed normals of a mesh
and `tangentsOk` tells whether `generate_tangents()` succeeds; its `Err`
case hits the `.unwrap()` on line 326 and panics, modelled as `none`. -/
def generate_terrain_mesh (fbm : ℚ → ℚ → ℚ) (sn : MeshQ → List Vec3)
    (tangentsOk : MeshQ → Bool) (half_size : ℕ) : Option MeshQ :=
  let m := displacePlane fbm half_size
  let m := { m with normals := sn m }
  if tangentsOk m then some m else none

/-- `Mesh::rotated_by(Quat::from_axis_angle(Vec3::Y, rotation))` (lines
186-187): a rigid yaw about the vertical axis applied to positions and
normals.  `c` and `s` stand for the cosine and sine of the angle, abstracted
as rationals since they are transcendental in general. -/
def rotateY (c s : ℚ) (v : Vec3) : Vec3 :=
  ⟨c * v.x + s * v.z, v.y, -s * v.x + c * v.z⟩

/-- Yaw rotation of a whole mesh (positions and normals). -/
def rotateMeshY (c s : ℚ) (m : MeshQ) : MeshQ :=
  { m with positions := m.positions.map (rotateY c s),
           normals := m.normals.map (rotateY c s) }

/-- Everything `on_terrain_config_loaded` reads for one generation pass:
the config snapshot, the number of loaded tree variants
(`terrain_resources.trees.len()`), the seeded noise sampler, the engine's
smooth-normal and tangent-generation routines (abstract, see
`generate_terrain_mesh`), the cosine/sine of `cfg.rotation`, and the
`StdRng` stream seeded from `cfg.seed`. -/
structure PassEnv where
  cfg : TerrainConfig
  trees : ℕ
  fbm : ℚ → ℚ → ℚ
  sn : MeshQ → List Vec3
  tangentsOk : MeshQ → Bool
  cosR : ℚ
  sinR : ℚ
  stream : ℕ → ℚ

/-- The output a successful generation pass hands to the scene: the rotated
terrain mesh, the scattered instances, and the console log lines. -/
structure PassOut where
  mesh : MeshQ
  instances : List PlacementInstance
  logs : List String

/-- `on_terrain_config_loaded` (lines 162-300) as a pure pass: generate the
terrain mesh (the tangent `.unwrap()` on line 326 may panic, giving `none`),
rotate it by the config yaw, and — when at least one tree variant is loaded —
run the scatter over the rotated mesh's positions and normals with the
stream seeded from the config seed; with no variants, log
`trees not ready yet` and place nothing.  The mesh itself is produced and
installed in either case. -/
def passResult (env : PassEnv) : Option PassOut :=
  match generate_terrain_mesh env.fbm env.sn env.tangentsOk env.cfg.half_size with
  | none => none
  | some m =>
    let m := rotateMeshY env.cosR env.sinR m
    if env.trees ≠ 0 then
      some ⟨m, scatter env.cfg env.trees m.positions m.normals env.stream,
            ["terrain config changed"]⟩
    else
      some ⟨m, [], ["terrain config changed", "trees not ready yet"]⟩

/-- What a scene entity is for the regeneration lifecycle: its kind, whether
it carries the `DespawnOnTerrainReload` marker (lines 151-152; both the
terrain mesh entity and every tree instance are spawned with it), and the
index of the generation pass that spawned it. -/
inductive EntKind where
  | terrainMesh
  | treeInstance
  | other
deriving Repr, DecidableEq

/-- A live scene entity, tracked for teardown. -/
structure Ent where
  kind : EntKind
  reload : Bool
  gen : ℕ
deriving Repr, DecidableEq

/-- The entities a successful pass `g` spawns: one per placement instance
(lines 217-237) and the terrain mesh entity (lines 251-299), every one
tagged `DespawnOnTerrainReload`. -/
def spawnEnts (out : PassOut) (g : ℕ) : List Ent :=
  out.instances.map (fun _ => ⟨.treeInstance, true, g⟩) ++ [⟨.terrainMesh, true, g⟩]

/-- Applying generation pass `g` to the world.  Bevy `Commands` are a
deferred queue flushed only after the system returns: on a panic
(`passResult = none`) nothing is applied and the world is unchanged;
otherwise the queued despawns (lines 173-176 despawn every entity carrying
`DespawnOnTerrainReload`) and the queued spawns take effect in one flush. -/
def applyPass (env : PassEnv) (g : ℕ) (w : List Ent) : List Ent :=
  match passResult env with
  | none => w
  | some out => w.filter (fun e => !e.reload) ++ spawnEnts out g

/-! ## Helper lemmas -/

theorem length_flatMap_two {α β : Type} (l : List α) (f g : α → β) :
    (l.flatMap fun c => [f c, g c]).length = 2 * l.length := by
  induction l with
  | nil => simp
  | cons a tl ih => simp [List.flatMap_cons, ih]; ring

theorem Plane.positions_length (pl : Plane) :
    pl.positions.length = (pl.subdivisions + 1) * (pl.subdivisions + 1) := by
  simp [Plane.positions]

theorem Plane.triangles_length (pl : Plane) :
    pl.triangles.length = 2 * (pl.subdivisions * pl.subdivisions) := by
  simpa [Plane.triangles] using
    length_flatMap_two (List.range (pl.subdivisions * pl.subdivisions)) _ _

theorem displacePlane_positions (fbm : ℚ → ℚ → ℚ) (h : ℕ) :
    (displacePlane fbm h).positions = (terrainPlane h).positions.map
      (fun p => ⟨p.x, get_terrain_height fbm p.x p.z, p.z⟩) := rfl

theorem displacePlane_triangles (fbm : ℚ → ℚ → ℚ) (h : ℕ) :
    (displacePlane fbm h).triangles = (terrainPlane h).triangles := rfl

theorem generate_terrain_mesh_some {fbm : ℚ → ℚ → ℚ} {sn : MeshQ → List Vec3}
    {tangentsOk : MeshQ → Bool} {h : ℕ} {m : MeshQ}
    (hm : generate_terrain_mesh fbm sn tangentsOk h = some m) :
    m.positions = (displacePlane fbm h).positions ∧
      m.triangles = (displacePlane fbm h).triangles := by
  simp only [generate_terrain_mesh] at hm
  split at hm
  · cases hm; exact ⟨rfl, rfl⟩
  · cases hm

/-! ## Claims -/

/-- C1.  For every `half_size > 0`, the mesh returned by
`generate_terrain_mesh` has exactly `(2*half_size+1)^2` vertices and
`2*(2*half_size)^2` triangles, and every vertex is `(x, h, z)` where
`(x, z)` are that vertex's original horizontal coordinates on the flat
subdivided plane (unchanged by displacement) and
`h = get_terrain_height fbm x z = fbm (0.05*x) (0.05*z) * 100`. -/
theorem terrain_mesh_shape_and_heights (fbm : ℚ → ℚ → ℚ) (sn : MeshQ → List Vec3)
    (tangentsOk : MeshQ → Bool) (h : ℕ) (hpos : 0 < h) (m : MeshQ)
    (hm : generate_terrain_mesh fbm sn tangentsOk h = some m) :
    m.positions.length = (2 * h + 1) ^ 2 ∧
      m.triangles.length = 2 * (2 * h) ^ 2 ∧
      ∀ i : ℕ, m.positions[i]? = ((terrainPlane h).positions[i]?).map
        (fun p => ⟨p.x, get_terrain_height fbm p.x p.z, p.z⟩) := by
  obtain ⟨hp, ht⟩ := generate_terrain_mesh_some hm
  refine ⟨?_, ?_, ?_⟩
  · rw [hp, displacePlane_positions, List.length_map, Plane.positions_length]
    simp [terrainPlane]; ring
  · rw [ht, displacePlane_triangles, Plane.triangles_length]
    simp [terrainPlane]; ring
  · intro i
    rw [hp, displacePlane_positions, List.getElem?_map]

/-- Witness for C1 at `half_size = 1` with a concrete noise function. -/
theorem terrain_mesh_shape_and_heights_witness :
    0 < 1 ∧
      (displacePlane (fun x z => x + z) 1).positions.length = (2 * 1 + 1) ^ 2 := by
  refine ⟨Nat.one_pos, ?_⟩
  exact (terrain_mesh_shape_and_heights (fun x z => x + z) (fun m => m.normals)
    (fun _ => true) 1 Nat.one_pos (displacePlane (fun x z => x + z) 1) rfl).1

/-- C3.  Scatter is reproducible: with identical config, variant count, mesh
data and seeded RNG stream, two scatter runs produce identical instance
lists — same length, same order, and identical translation, scale, rotation
yaw and variant index at every position.  The scatter is a pure function of
a single seeded stream consumed in a fixed iteration order, so equal inputs
force bit-identical outputs. -/
theorem scatter_reproducible (cfg cfg' : TerrainConfig) (t t' : ℕ)
    (positions positions' normals normals' : List Vec3) (u u' : ℕ → ℚ)
    (hc : cfg = cfg') (ht : t = t') (hp : positions = positions')
    (hn : normals = normals') (hu : u = u') :
    scatter cfg t positions normals u = scatter cfg' t' positions' normals' u' ∧
      (scatter cfg t positions normals u).length =
        (scatter cfg' t' positions' normals' u').length ∧
      ∀ i : ℕ, ((scatter cfg t positions normals u)[i]?).map
          (fun a => (a.translation, a.scale, a.yawZ, a.variant)) =
        ((scatter cfg' t' positions' normals' u')[i]?).map
          (fun a => (a.translation, a.scale, a.yawZ, a.variant)) := by
  subst hc; subst ht; subst hp; subst hn; subst hu
  exact ⟨rfl, rfl, fun _ => rfl⟩

/-- Witness for C3 at a concrete configuration and stream. -/
theorem scatter_reproducible_witness :
    scatter TerrainConfig.default 1 [⟨0, 5, 0⟩] [⟨0, 1, 0⟩] (fun _ => 0) =
      scatter TerrainConfig.default 1 [⟨0, 5, 0⟩] [⟨0, 1, 0⟩] (fun _ => 0) :=
  (scatter_reproducible TerrainConfig.default TerrainConfig.default 1 1
    [⟨0, 5, 0⟩] [⟨0, 5, 0⟩] [⟨0, 1, 0⟩] [⟨0, 1, 0⟩] (fun _ => 0) (fun _ => 0)
    rfl rfl rfl rfl rfl).1

/-- Soundness of the scatter loop: every produced instance comes from some
zipped `(position, normal)` pair whose height gate, density coin flip and
slope gate all passed, and the instance's data is exactly the accepted-tail
draws from the single stream (the coin was draw `k`, the tail starts at
`k + 1`). -/
theorem mem_scatterAux {cfg : TerrainConfig} {t : ℕ} {inst : PlacementInstance} :
    ∀ (pairs : List (Vec3 × Vec3)) (r : Rng), inst ∈ scatterAux cfg t pairs r →
      ∃ p n k, (p, n) ∈ pairs ∧ ¬(p.y < 1/100) ∧
        ¬(r.u k < 1 - cfg.density) ∧
        steepnessGT n cfg.max_steepness = false ∧
        inst = (acceptInst t p ⟨r.u, k + 1⟩).1 := by
  intro pairs
  induction pairs with
  | nil => intro r hr; simp [scatterAux] at hr
  | cons pn rest ih =>
    obtain ⟨p, n⟩ := pn
    intro r hr
    rw [scatterAux] at hr
    by_cases hy : p.y < 1/100
    · rw [if_pos hy] at hr
      obtain ⟨p', n', k, h1, h2, h3, h4, h5⟩ := ih r hr
      exact ⟨p', n', k, List.mem_cons_of_mem _ h1, h2, h3, h4, h5⟩
    · rw [if_neg hy] at hr
      simp only [genRange] at hr
      by_cases hcs : (0 + (1 - 0) * r.u r.k < 1 - cfg.density ∨
          steepnessGT n cfg.max_steepness = true)
      · rw [if_pos hcs] at hr
        obtain ⟨p', n', k, h1, h2, h3, h4, h5⟩ := ih _ hr
        exact ⟨p', n', k, List.mem_cons_of_mem _ h1, h2, h3, h4, h5⟩
      · rw [if_neg hcs] at hr
        push_neg at hcs
        obtain ⟨hc, hs⟩ := hcs
        rcases List.mem_cons.mp hr with heq | htl
        · refine ⟨p, n, r.k, List.mem_cons_self _ _, hy, ?_, ?_, heq⟩
          · intro hlt; linarith
          · exact Bool.eq_false_iff.mpr hs
        · obtain ⟨p', n', k, h1, h2, h3, h4, h5⟩ := ih _ htl
          exact ⟨p', n', k, List.mem_cons_of_mem _ h1, h2, h3, h4, h5⟩

/-- A config that admits every vertex at or above the height threshold with
a flat normal: full density, zero slope tolerance. -/
def cfgFull : TerrainConfig :=
  { TerrainConfig.default with density := 1, max_steepness := 0 }

/-- C2 counterexample.  The height gate of line 202 rejects only
`terrain_height < 0.01`: a vertex at height exactly `0.01 = 1/100` passes
all three gates and produces an instance, so placement does occur *at* the
minimum-height threshold, refuting "strictly above ... never below or at
the threshold". -/
theorem placement_at_threshold_cx :
    scatter cfgFull 1 [⟨0, 1/100, 0⟩] [⟨0, 1, 0⟩] (fun _ => 0) =
      [⟨⟨-(1/4), -(1/25), -(1/4)⟩, 9999/500000, 0, 0⟩] ∧
      ¬((1 : ℚ)/100 > 1/100) := by
  constructor
  · norm_num [scatter, scatterAux, genRange, genIndex, acceptInst, cfgFull,
      TerrainConfig.default, steepnessGT, normSq, crossY, tauF32]
  · exact lt_irrefl _

/-- C2 as amended.  Every instance produced by the scatter is the
accepted-tail output `(acceptInst t p ⟨u, k+1⟩).1` of its own un-jittered
source vertex `p` — some zipped `(position, normal)` pair whose coin flip
was draw `k` of the single stream — and that source vertex passed all three
gates of the config: its height is at or above the `1/100` threshold (the
code accepts height exactly `0.01`, so "strictly above" is weakened to "at
or above"; since every instance carries such a source vertex, no instance
is produced from a vertex strictly below the threshold), its density
coin-flip draw `u k` was not below `1 - density`, and its slope gate
accepted it. -/
theorem placement_gates_sound (cfg : TerrainConfig) (t : ℕ)
    (positions normals : List Vec3) (u : ℕ → ℚ) :
    ∀ inst ∈ scatter cfg t positions normals u,
      ∃ p n k, (p, n) ∈ positions.zip normals ∧
        1/100 ≤ p.y ∧ 1 - cfg.density ≤ u k ∧
        steepnessGT n cfg.max_steepness = false ∧
        inst = (acceptInst t p ⟨u, k + 1⟩).1 := by
  intro inst hmem
  obtain ⟨p, n, k, h1, h2, h3, h4, h5⟩ := mem_scatterAux _ _ hmem
  exact ⟨p, n, k, h1, not_lt.mp h2, not_lt.mp h3, h4, h5⟩

/-- Witness for C2 on a concrete accepted instance: the produced instance
is the accepted-tail output of its source vertex `(0, 5, 0)`. -/
theorem placement_gates_sound_witness :
    ∃ p n k, (p, n) ∈ ([⟨0, 5, 0⟩] : List Vec3).zip [⟨0, 1, 0⟩] ∧
      1/100 ≤ p.y ∧ 1 - cfgFull.density ≤ (fun _ : ℕ => (0 : ℚ)) k ∧
      steepnessGT n cfgFull.max_steepness = false ∧
      (⟨⟨-(1/4), 99/20, -(1/4)⟩, 19/1000, 0, 0⟩ : PlacementInstance) =
        (acceptInst 1 p ⟨fun _ => 0, k + 1⟩).1 :=
  placement_gates_sound cfgFull 1 [⟨0, 5, 0⟩] [⟨0, 1, 0⟩] (fun _ => 0)
    ⟨⟨-(1/4), 99/20, -(1/4)⟩, 19/1000, 0, 0⟩
    (by norm_num [scatter, scatterAux, genRange, genIndex, acceptInst, cfgFull,
      TerrainConfig.default, steepnessGT, normSq, crossY, tauF32])

/-- The exact rational decision procedure `steepnessGT` decides precisely
the comparison the code makes in floats: the Euclidean length of
`n.cross(Vec3::Y)` is at most `s` iff the gate does not fire. -/
theorem steepnessGT_eq_false_iff (n : Vec3) (s : ℚ) :
    steepnessGT n s = false ↔
      Real.sqrt ((normSq (crossY n) : ℚ) : ℝ) ≤ (s : ℝ) := by
  rw [Real.sqrt_le_iff]
  simp only [steepnessGT, decide_eq_false_iff_not, not_or, not_lt]
  constructor
  · rintro ⟨hs, hq⟩
    exact ⟨by exact_mod_cast hs, by exact_mod_cast hq⟩
  · rintro ⟨hs, hq⟩
    exact ⟨by exact_mod_cast hs, by exact_mod_cast hq⟩

/-- C9.  The slope gate convention the scatter implements: for a vertex
that passed the height gate and the density coin flip, an instance is
produced exactly when the Euclidean length of the cross product of its
normal with the up axis — `‖n × Y‖ = sqrt(normSq (crossY n))`, the sine of
the normal's deviation from vertical — is not strictly greater than
`max_steepness`; rejection happens exactly on strict excess.  In
particular the gate reads the cross-product length, not the up-component
`n.y` against a `slope_spawn` bound. -/
theorem slope_gate_cross_length (cfg : TerrainConfig) (t : ℕ) (p n : Vec3)
    (u : ℕ → ℚ) (k : ℕ) (hy : ¬ p.y < 1/100) (hc : ¬ u k < 1 - cfg.density) :
    scatterAux cfg t [(p, n)] ⟨u, k⟩ ≠ [] ↔
      Real.sqrt ((normSq (crossY n) : ℚ) : ℝ) ≤ (cfg.max_steepness : ℝ) := by
  rw [← steepnessGT_eq_false_iff]
  rw [scatterAux, if_neg hy]
  simp only [genRange]
  by_cases hs : steepnessGT n cfg.max_steepness = true
  · rw [if_pos (Or.inr hs)]
    simp [scatterAux, hs]
  · rw [if_neg ?hcond]
    case hcond =>
      rintro (hlt | hb)
      · exact hc (by linarith)
      · exact hs hb
    simp [Bool.eq_false_iff.mpr hs]

/-- Witness for C9: a flat normal `(0,1,0)` has `‖n × Y‖ = 0 ≤ 1/2` and the
default-config scatter over one high vertex indeed produces an instance. -/
theorem slope_gate_cross_length_witness :
    scatterAux TerrainConfig.default 1 [(⟨0, 5, 0⟩, ⟨0, 1, 0⟩)]
      ⟨fun _ => 1/2, 0⟩ ≠ [] := by
  refine (slope_gate_cross_length TerrainConfig.default 1 ⟨0, 5, 0⟩ ⟨0, 1, 0⟩
    (fun _ => 1/2) 0 (by norm_num) (by norm_num [TerrainConfig.default])).mpr ?_
  have h0 : ((normSq (crossY ⟨0, 1, 0⟩) : ℚ) : ℝ) = 0 := by
    norm_num [normSq, crossY]
  rw [h0, Real.sqrt_zero]
  norm_num [TerrainConfig.default]

/-- C10 counterexample.  `gen_range(-0.25..0.25)` is a half-open draw whose
low endpoint is attainable: with a stream of zero draws the accepted vertex
at `(0, 5, 0)` gets horizontal jitter exactly `-1/4`, so the instance's
horizontal offset is NOT strictly less than `0.25` in absolute value. -/
theorem jitter_reaches_lower_bound_cx :
    (scatter cfgFull 1 [⟨0, 5, 0⟩] [⟨0, 1, 0⟩] (fun _ => 0)).map
        (fun i => i.translation.x) = [-(1/4)] ∧
      ¬(|(-(1/4) : ℚ) - 0| < 1/4) := by
  constructor
  · norm_num [scatter, scatterAux, genRange, genIndex, acceptInst, cfgFull,
      TerrainConfig.default, steepnessGT, normSq, crossY, tauF32]
  · norm_num [abs_lt]

/-- C10 as amended.  For every instance the scatter produces from a bounded
stream, the translation differs from the source vertex by a horizontal
jitter in `[-1/4, 1/4)` on each horizontal axis (the lower endpoint `-0.25`
is attainable, so "strictly less than 0.25 in absolute value" is weakened
to the half-open interval), and the vertical component lies in
`[p.y - 1/20, p.y)`: every instance sits strictly below its source vertex's
height by at most `0.05`. -/
theorem jitter_bounds (cfg : TerrainConfig) (t : ℕ)
    (positions normals : List Vec3) (u : ℕ → ℚ) (hu : Rng.streamBounded u) :
    ∀ inst ∈ scatter cfg t positions normals u,
      ∃ p n, (p, n) ∈ positions.zip normals ∧
        -(1/4) ≤ inst.translation.x - p.x ∧ inst.translation.x - p.x < 1/4 ∧
        -(1/4) ≤ inst.translation.z - p.z ∧ inst.translation.z - p.z < 1/4 ∧
        p.y - 1/20 ≤ inst.translation.y ∧ inst.translation.y < p.y := by
  intro inst hmem
  obtain ⟨p, n, k, h1, _, _, _, h5⟩ := mem_scatterAux _ _ hmem
  obtain ⟨ha1, ha2⟩ := hu (k + 1)
  obtain ⟨hb1, hb2⟩ := hu (k + 1 + 1)
  obtain ⟨hc1, hc2⟩ := hu (k + 1 + 1 + 1)
  rw [h5]
  simp only [acceptInst, genRange, genIndex]
  exact ⟨p, n, h1, by linarith, by linarith, by linarith, by linarith,
    by linarith, by linarith⟩

/-- Witness for C10 on a concrete run with a constant bounded stream. -/
theorem jitter_bounds_witness :
    ∃ (p n : Vec3), (p, n) ∈ ([⟨0, 5, 0⟩] : List Vec3).zip [⟨0, 1, 0⟩] ∧
      -(1/4) ≤ (-(1/4) : ℚ) - p.x ∧ (-(1/4) : ℚ) - p.x < 1/4 ∧
      -(1/4) ≤ (-(1/4) : ℚ) - p.z ∧ (-(1/4) : ℚ) - p.z < 1/4 ∧
      p.y - 1/20 ≤ (99/20 : ℚ) ∧ (99/20 : ℚ) < p.y := by
  have hb : Rng.streamBounded (fun _ => 0) := fun i => by norm_num
  have hm : (⟨⟨-(1/4), 99/20, -(1/4)⟩, 19/1000, 0, 0⟩ : PlacementInstance) ∈
      scatter cfgFull 1 [⟨0, 5, 0⟩] [⟨0, 1, 0⟩] (fun _ => 0) := by
    norm_num [scatter, scatterAux, genRange, genIndex, acceptInst, cfgFull,
      TerrainConfig.default, steepnessGT, normSq, crossY, tauF32]
  exact jitter_bounds cfgFull 1 [⟨0, 5, 0⟩] [⟨0, 1, 0⟩] (fun _ => 0) hb
    ⟨⟨-(1/4), 99/20, -(1/4)⟩, 19/1000, 0, 0⟩ hm

/-- Rotation maps positions one-to-one, preserving the vertex count. -/
theorem rotateMeshY_positions_length (c s : ℚ) (m : MeshQ) :
    (rotateMeshY c s m).positions.length = m.positions.length := by
  simp [rotateMeshY]

/-- The displaced plane has the full `(2·half_size+1)²` vertex grid. -/
theorem displacePlane_positions_length (fbm : ℚ → ℚ → ℚ) (h : ℕ) :
    (displacePlane fbm h).positions.length = (2 * h + 1) ^ 2 := by
  rw [displacePlane_positions, List.length_map, Plane.positions_length]
  simp [terrainPlane]; ring

/-- When tangent generation succeeds, `generate_terrain_mesh` returns the
displaced plane with recomputed normals. -/
theorem generate_terrain_mesh_of_tangentsOk (fbm : ℚ → ℚ → ℚ)
    (sn : MeshQ → List Vec3) (tangentsOk : MeshQ → Bool) (h : ℕ)
    (htan : ∀ m, tangentsOk m = true) :
    generate_terrain_mesh fbm sn tangentsOk h =
      some { displacePlane fbm h with normals := sn (displacePlane fbm h) } := by
  simp [generate_terrain_mesh, htan]

/-- With `density = 0` every coin flip `u k < 1 - 0 = 1` fires (draws are in
`[0,1)`), so the scatter loop rejects every vertex. -/
theorem scatterAux_density_zero (cfg : TerrainConfig) (t : ℕ)
    (hd : cfg.density = 0) :
    ∀ (pairs : List (Vec3 × Vec3)) (r : Rng), Rng.streamBounded r.u →
      scatterAux cfg t pairs r = [] := by
  intro pairs
  induction pairs with
  | nil => intro r _; rw [scatterAux]
  | cons pn rest ih =>
    obtain ⟨p, n⟩ := pn
    intro r hb
    rw [scatterAux]
    by_cases hy : p.y < 1/100
    · rw [if_pos hy]; exact ih r hb
    · rw [if_neg hy]
      simp only [genRange]
      rw [if_pos (Or.inl (by have := (hb r.k).2; rw [hd]; linarith))]
      exact ih _ hb

/-- The configuration the spec calls invalid: `half_size == 0`. -/
def invalidCfg : TerrainConfig := { TerrainConfig.default with half_size := 0 }

/-- A concrete pass environment carrying the invalid config, with no tree
variants loaded and always-succeeding tangent generation. -/
def envInvalid : PassEnv :=
  { cfg := invalidCfg, trees := 0, fbm := fun _ _ => 0, sn := fun m => m.normals,
    tangentsOk := fun _ => true, cosR := 1, sinR := 0, stream := fun _ => 0 }

/-- The output the pass produces on `envInvalid` (it does produce one). -/
def outInvalid : PassOut := (passResult envInvalid).getD ⟨⟨[], [], []⟩, [], []⟩

/-- C4 counterexample.  `on_terrain_config_loaded` performs no validation
whatsoever: on the invalid configuration `half_size = 0` the generation
pass runs to completion and installs a degenerate one-vertex mesh instead
of being rejected with a configuration error. -/
theorem invalid_config_generates_cx :
    invalidCfg.half_size = 0 ∧
      (passResult envInvalid).map (fun o => o.mesh.positions.length) = some 1 :=
  ⟨rfl, rfl⟩

/-- C4 as amended.  No configuration validation exists: for every pass
environment whose tangent generation succeeds — whatever the config,
including `half_size = 0`, negative `density`, negative `frequency` or
`octaves = 0` — the generation pass runs and installs a mesh with the full
`(2·half_size+1)²` vertex grid (a single degenerate vertex when
`half_size = 0`). -/
theorem generation_runs_without_validation (env : PassEnv)
    (htan : ∀ m, env.tangentsOk m = true) :
    ∃ out, passResult env = some out ∧
      out.mesh.positions.length = (2 * env.cfg.half_size + 1) ^ 2 := by
  have hgen := generate_terrain_mesh_of_tangentsOk env.fbm env.sn env.tangentsOk
    env.cfg.half_size htan
  simp only [passResult, hgen]
  by_cases ht : env.trees ≠ 0
  · rw [if_pos ht]
    refine ⟨_, rfl, ?_⟩
    show (rotateMeshY _ _ _).positions.length = _
    rw [rotateMeshY_positions_length]
    exact displacePlane_positions_length env.fbm env.cfg.half_size
  · rw [if_neg ht]
    refine ⟨_, rfl, ?_⟩
    show (rotateMeshY _ _ _).positions.length = _
    rw [rotateMeshY_positions_length]
    exact displacePlane_positions_length env.fbm env.cfg.half_size

/-- Witness for C4 on the concrete invalid environment. -/
theorem generation_runs_without_validation_witness :
    ∃ out, passResult envInvalid = some out ∧
      out.mesh.positions.length = (2 * envInvalid.cfg.half_size + 1) ^ 2 :=
  generation_runs_without_validation envInvalid (fun _ => rfl)

/-- C5.  If the pass panics (noise sampling or mesh construction — in this
code the `generate_tangents().unwrap()` of line 326 is the failing point),
its deferred command queue is never applied: the world is unchanged, every
previously installed entity (prior mesh and prior placement instances)
remains in the scene, and a non-empty scene never becomes empty. -/
theorem panic_installs_nothing (env : PassEnv) (g : ℕ) (w : List Ent)
    (hp : passResult env = none) :
    applyPass env g w = w ∧ (∀ e ∈ w, e ∈ applyPass env g w) ∧
      (w ≠ [] → applyPass env g w ≠ []) := by
  have h : applyPass env g w = w := by simp only [applyPass, hp]
  exact ⟨h, fun e he => h.symm ▸ he, fun hne => h.symm ▸ hne⟩

/-- A pass environment whose tangent generation always fails: the
`.unwrap()` panics on every mesh. -/
def envPanic : PassEnv :=
  { cfg := invalidCfg, trees := 0, fbm := fun _ _ => 0, sn := fun m => m.normals,
    tangentsOk := fun _ => false, cosR := 1, sinR := 0, stream := fun _ => 0 }

/-- Witness for C5: a panicking pass leaves the single prior terrain-mesh
entity in place. -/
theorem panic_installs_nothing_witness :
    applyPass envPanic 1 [⟨.terrainMesh, true, 0⟩] = [⟨.terrainMesh, true, 0⟩] :=
  (panic_installs_nothing envPanic 1 [⟨.terrainMesh, true, 0⟩] rfl).1

/-- C6.  On a completed pass `g`, the despawn of every entity tagged
`DespawnOnTerrainReload` is queued before the spawns and flushed with them
atomically: afterwards every live reload-tagged entity belongs to
generation `g`, and no reload-tagged entity of a prior generation survives
— two terrain generations are never simultaneously visible. -/
theorem single_generation_visible (env : PassEnv) (g : ℕ) (w : List Ent)
    (out : PassOut) (hs : passResult env = some out) (hw : ∀ e ∈ w, e.gen < g) :
    (∀ e ∈ applyPass env g w, e.reload = true → e.gen = g) ∧
      ∀ e ∈ w, e.reload = true → e ∉ applyPass env g w := by
  have happ : applyPass env g w = w.filter (fun e => !e.reload) ++ spawnEnts out g := by
    simp only [applyPass, hs]
  have hgen : ∀ e ∈ spawnEnts out g, e.gen = g := by
    intro e he
    rcases List.mem_append.mp he with hmap | hlast
    · obtain ⟨_, _, rfl⟩ := List.mem_map.mp hmap; rfl
    · simp only [List.mem_singleton] at hlast; subst hlast; rfl
  constructor
  · intro e he hrel
    rw [happ] at he
    rcases List.mem_append.mp he with hf | hsp
    · have := List.of_mem_filter hf
      simp [hrel] at this
    · exact hgen e hsp
  · intro e he hrel hmem
    rw [happ] at hmem
    rcases List.mem_append.mp hmem with hf | hsp
    · have := List.of_mem_filter hf
      simp [hrel] at this
    · have h1 := hw e he
      have h2 := hgen e hsp
      omega

/-- Witness for C6: a prior tagged tree instance is gone after the pass. -/
theorem single_generation_visible_witness :
    (∀ e ∈ applyPass envInvalid 1 [⟨.treeInstance, true, 0⟩],
        e.reload = true → e.gen = 1) ∧
      ∀ e ∈ ([⟨.treeInstance, true, 0⟩] : List Ent), e.reload = true →
        e ∉ applyPass envInvalid 1 [⟨.treeInstance, true, 0⟩] :=
  single_generation_visible envInvalid 1 [⟨.treeInstance, true, 0⟩] outInvalid rfl
    (by intro e he; simp only [List.mem_singleton] at he; subst he; decide)

/-- C7.  When no tree variant is loaded (`terrain_resources.trees` empty)
the pass still produces and installs the terrain mesh, yields zero
placement instances, and logs the condition (`trees not ready yet`,
line 240). -/
theorem assets_missing_mesh_still_installed (env : PassEnv) (g : ℕ)
    (w : List Ent) (ht : env.trees = 0) (htan : ∀ m, env.tangentsOk m = true) :
    ∃ out, passResult env = some out ∧ out.instances = [] ∧
      "trees not ready yet" ∈ out.logs ∧
      (⟨.terrainMesh, true, g⟩ : Ent) ∈ applyPass env g w := by
  have hgen := generate_terrain_mesh_of_tangentsOk env.fbm env.sn env.tangentsOk
    env.cfg.half_size htan
  have hps : passResult env = some
      ⟨rotateMeshY env.cosR env.sinR
        { displacePlane env.fbm env.cfg.half_size with
          normals := env.sn (displacePlane env.fbm env.cfg.half_size) },
       [], ["terrain config changed", "trees not ready yet"]⟩ := by
    simp only [passResult, hgen]
    rw [if_neg (by simp [ht])]
  refine ⟨_, hps, rfl, by simp, ?_⟩
  simp only [applyPass, hps, spawnEnts]
  simp

/-- Witness for C7 on the concrete treeless environment. -/
theorem assets_missing_mesh_still_installed_witness :
    ∃ out, passResult envInvalid = some out ∧ out.instances = [] ∧
      "trees not ready yet" ∈ out.logs ∧
      (⟨.terrainMesh, true, 2⟩ : Ent) ∈ applyPass envInvalid 2 [] :=
  assets_missing_mesh_still_installed envInvalid 2 [] rfl (fun _ => rfl)

/-- C8.  With `density = 0` the coin flip `u k < 1 - 0 = 1` rejects every
vertex (all draws lie in `[0,1)`), so a completed pass produces zero
placement instances whatever the mesh and stream; and when the config is
the spec's example (`half_size = 4`, density 0) the generated mesh has
exactly `(2*4+1)^2 = 81` vertices. -/
theorem density_zero_yields_no_instances (env : PassEnv)
    (hd : env.cfg.density = 0) (hu : Rng.streamBounded env.stream)
    (htan : ∀ m, env.tangentsOk m = true) :
    ∃ out, passResult env = some out ∧ out.instances = [] ∧
      (env.cfg.half_size = 4 → out.mesh.positions.length = 81) := by
  have hgen := generate_terrain_mesh_of_tangentsOk env.fbm env.sn env.tangentsOk
    env.cfg.half_size htan
  have hlen : ∀ m : MeshQ, env.cfg.half_size = 4 →
      m.positions = (displacePlane env.fbm env.cfg.half_size).positions →
      (rotateMeshY env.cosR env.sinR m).positions.length = 81 := by
    intro m h4 hpm
    rw [rotateMeshY_positions_length, hpm, displacePlane_positions_length, h4]
    norm_num
  simp only [passResult, hgen]
  by_cases ht : env.trees ≠ 0
  · rw [if_pos ht]
    refine ⟨_, rfl, ?_, fun h4 => hlen _ h4 rfl⟩
    exact scatterAux_density_zero env.cfg env.trees hd _ ⟨env.stream, 0⟩ hu
  · rw [if_neg ht]
    exact ⟨_, rfl, rfl, fun h4 => hlen _ h4 rfl⟩

/-- The spec's §8 example environment: `half_size=4, seed=42, frequency=1,
octaves=6, density=0`, one loaded tree variant, a bounded stream. -/
def envExample : PassEnv :=
  { cfg := { TerrainConfig.default with half_size := 4, density := 0 },
    trees := 1, fbm := fun _ _ => 0, sn := fun m => m.normals,
    tangentsOk := fun _ => true, cosR := 1, sinR := 0, stream := fun _ => 1/2 }

/-- Witness for C8 on the spec's example configuration. -/
theorem density_zero_yields_no_instances_witness :
    ∃ out, passResult envExample = some out ∧ out.instances = [] ∧
      (envExample.cfg.half_size = 4 → out.mesh.positions.length = 81) :=
  density_zero_yields_no_instances envExample rfl (fun i => by norm_num [envExample])
    (fun _ => rfl)
